import Mathlib

/-!
cj: running a one-off command as an ephemeral swarm service.

A shallow embedding of `main.go`.  Calls into the docker client are the
boundary of the program: their outcomes are inputs of the model and the calls
the program issues are recorded in a trace.

* `waitOnTasks` consumes the successive outcomes of `cli.TaskList`.  A finite
  list of outcomes stands for what the cluster has answered so far; when it is
  used up without an all-terminal answer the watcher has not signalled yet.
* Go `int` is 64 bits wide on the platforms docker runs on; exit codes are
  integers and `float64(x)` is modelled exactly (round to nearest, ties to
  even, 53 significant bits), so every float that occurs is an integer.
-/

namespace Cj

/-! ## Data model (types of the docker libraries, as far as the program reads them) -/

/-- Modelled from the spec: the declaration of `swarm.TaskState` lives in the
docker API package; these are its states. -/
inductive TaskState where
  | new | allocated | pending | assigned | accepted | preparing | ready
  | starting | running | complete | shutdown | failed | rejected | remove | orphaned
  deriving DecidableEq, Repr

/-- The two fields of `swarm.Task` the watcher reads: `Status.State` and
`Status.ContainerStatus.ExitCode`. -/
structure Task where
  State : TaskState
  ExitCode : Int
  deriving DecidableEq, Repr

/-- Outcome of one `cli.TaskList` call. -/
inductive PollResult where
  | err
  | ok (tasks : List Task)
  deriving DecidableEq, Repr

/-- What the watcher goroutine does, in order. -/
inductive WatchEvent where
  | poll
  | sleep
  | send (exitCode : Int)
  deriving DecidableEq, Repr

/-! ## `math.Abs(float64(x))` -/

/-- Round `n` to a multiple of `2 ^ s`, ties to the even quotient. -/
def roundShift (s n : Nat) : Nat :=
  let q := n / 2 ^ s
  let r := n % 2 ^ s
  (if 2 ^ s < 2 * r ∨ (2 * r = 2 ^ s ∧ q % 2 = 1) then q + 1 else q) * 2 ^ s

/-- How many low bits `n` has beyond 53 significant ones (`fuel` bounds the
number of halvings; `n` itself always suffices). -/
def excessBits : Nat → Nat → Nat
  | 0, _ => 0
  | fuel + 1, n => if n < 2 ^ 53 then 0 else excessBits fuel (n / 2) + 1

/-- Magnitude of `float64(x)` for a magnitude `n`: at most 53 significant bits
are kept. -/
def roundToFloat64 (n : Nat) : Nat :=
  roundShift (excessBits n n) n

/-- The value of the conversion `float64(x)` of a Go `int`. -/
def float64 (x : Int) : Int :=
  if x < 0 then -(roundToFloat64 x.natAbs : Int) else (roundToFloat64 x.natAbs : Int)

/-- The function `math.Abs`. -/
def mathAbs (f : Int) : Int :=
  if f < 0 then -f else f

/-! ## `waitOnTasks` -/

/-- The body of `for _, task := range tasks`, started with the current
`exitCode`; returns `(finished, exitCode)`. -/
def scanTasks : List Task → Int → Bool × Int
  | [], exitCode => (true, exitCode)
  | task :: rest, exitCode =>
    if task.State ≠ TaskState.complete ∧ task.State ≠ TaskState.failed
        ∧ task.State ≠ TaskState.rejected then
      (false, exitCode)
    else if task.ExitCode ≠ 0 then
      if mathAbs (float64 exitCode) < mathAbs (float64 task.ExitCode) then
        scanTasks rest task.ExitCode
      else
        scanTasks rest exitCode
    else
      scanTasks rest exitCode

/-- The outer `for` of `waitOnTasks` followed by `c <- exitCode`: the events of
the watcher and the code it has sent, if it has. -/
def waitLoop : List PollResult → Int → List WatchEvent × Option Int
  | [], _ => ([], none)
  | PollResult.err :: polls, exitCode =>
    let r := waitLoop polls exitCode
    (WatchEvent.poll :: r.1, r.2)
  | PollResult.ok tasks :: polls, exitCode =>
    let s := scanTasks tasks exitCode
    if s.1 then
      ([WatchEvent.poll, WatchEvent.send s.2], some s.2)
    else
      let r := waitLoop polls s.2
      (WatchEvent.poll :: WatchEvent.sleep :: r.1, r.2)

/-- The function `waitOnTasks`: `exitCode := 0`, then the loop. -/
def waitOnTasks (polls : List PollResult) : List WatchEvent × Option Int :=
  waitLoop polls 0

/-! ## Vocabulary of the specification, for the watcher -/

/-- Terminal states of the specification: Complete, Failed, Rejected. -/
def isTerminal (t : Task) : Bool :=
  t.State = TaskState.complete || t.State = TaskState.failed || t.State = TaskState.rejected

/-- A poll after which the job counts as finished: it succeeded and every
listed task is terminal. -/
def PollResult.finished : PollResult → Bool
  | PollResult.err => false
  | PollResult.ok tasks => tasks.all isTerminal

/-- Exit codes of the tasks the watcher looks at in a poll that does not
finish the job: those before the first non-terminal task. -/
def PollResult.scannedCodes : PollResult → List Int
  | PollResult.err => []
  | PollResult.ok tasks => (tasks.takeWhile isTerminal).map Task.ExitCode

/-- The aggregation rule in the words of the specification: replace the
current code by the task's code when the latter is non-zero and strictly larger
in absolute value. -/
def keepLarger (current code : Int) : Int :=
  if code ≠ 0 ∧ current.natAbs < code.natAbs then code else current

/-- Events of a stretch of polls none of which finishes the job. -/
def idleTrace : List PollResult → List WatchEvent
  | [] => []
  | PollResult.err :: polls => WatchEvent.poll :: idleTrace polls
  | PollResult.ok _ :: polls => WatchEvent.poll :: WatchEvent.sleep :: idleTrace polls

/-- The codes sent in a trace, in order. -/
def sentCodes : List WatchEvent → List Int
  | [] => []
  | WatchEvent.send c :: evs => c :: sentCodes evs
  | _ :: evs => sentCodes evs

/-- Number of polls issued in a trace. -/
def pollCount : List WatchEvent → Nat
  | [] => 0
  | WatchEvent.poll :: evs => pollCount evs + 1
  | _ :: evs => pollCount evs

/-- The update of `exitCode` made for one terminal task. -/
def codeStep (exitCode code : Int) : Int :=
  if code ≠ 0 then
    if mathAbs (float64 exitCode) < mathAbs (float64 code) then code else exitCode
  else exitCode

/-! ## Errors, service specifications and the docker client -/

/-- Go `error` values: those made by the program itself, and those handed over
by a library or the daemon. -/
inductive Err where
  | lib (msg : String)
  | notSwarmManager
  | serviceNotFound (serviceName : String)
  | unexpectedEnvironment (s : String)
  deriving DecidableEq, Repr

/-- The type `swarm.RestartPolicy`. -/
structure RestartPolicy where
  Condition : String
  Delay : Option Nat
  MaxAttempts : Option Nat
  Window : Option Nat
  deriving DecidableEq, Repr

/-- The constant `swarm.RestartPolicyConditionNone`. -/
def RestartPolicyConditionNone : String := "none"

/-- The type `swarm.ContainerSpec`: the two fields the program writes, and the
remaining ones. -/
structure ContainerSpec (κ : Type) where
  Command : List String
  Args : List String
  others : κ
  deriving DecidableEq, Repr

/-- The type `swarm.TaskSpec`. -/
structure TaskSpec (κ τ : Type) where
  ContainerSpec : ContainerSpec κ
  RestartPolicy : Option RestartPolicy
  others : τ
  deriving DecidableEq, Repr

/-- The type `swarm.ReplicatedService`. -/
structure ReplicatedService where
  Replicas : Option Nat
  deriving DecidableEq, Repr

/-- The type `swarm.GlobalService`. -/
structure GlobalService where
  deriving DecidableEq, Repr

/-- The type `swarm.ServiceMode`. -/
structure ServiceMode where
  Replicated : Option ReplicatedService
  Global : Option GlobalService
  deriving DecidableEq, Repr

/-- The type `swarm.ServiceSpec`. -/
structure ServiceSpec (κ τ σ : Type) where
  Name : String
  TaskTemplate : TaskSpec κ τ
  Mode : ServiceMode
  others : σ
  deriving DecidableEq, Repr

/-- Calls and steps of the coordinator, in the order it makes them. -/
inductive Call (κ τ σ : Type) where
  | Info
  | ServiceCreate (service : ServiceSpec κ τ σ)
  | goWaitOnTasks (serviceFilter : String)
  | ServiceLogs (serviceID : String)
  | goCopy
  | receive (exitCode : Int)
  | ServiceRemove (serviceID : String)
  deriving DecidableEq, Repr

/-- How a call of `runJob` or `cj` ends: it returns `(int, error)`, it panics
on a nil dereference, or it is still waiting for the watcher. -/
inductive Outcome where
  | returned (exitCode : Int) (err : Option Err)
  | panicked
  | blocked
  deriving DecidableEq, Repr

/-- The docker client `cli`, by the answers it gives. `TaskList` gives the
successive answers to the polls for a service filter. -/
structure Client (κ τ σ : Type) where
  Info : Except Err Bool
  ServiceCreate : ServiceSpec κ τ σ → Except Err String
  TaskList : String → List PollResult
  ServiceLogs : String → Except Err Unit

variable {κ τ σ Y C : Type}

/-! ## `randSeq` and the job specification -/

/-- The variable `letters`. -/
def letters : List Char := "abcdefghijklmnopqrstuvwxyz".toList

/-- The function `randSeq`; `rnd i` is the raw value behind the `i`-th call of
`rand.Intn`, which returns it reduced into `[0, len(letters))`. -/
def randSeq (rnd : Nat → Nat) (n : Nat) : String :=
  String.mk ((List.range n).map fun i =>
    letters.get ⟨rnd i % letters.length, Nat.mod_lt _ (by decide)⟩)

/-- Lines 197 to 217 of `runJob`: the specification handed to `ServiceCreate`. -/
def jobSpec (rnd : Nat → Nat) (service : ServiceSpec κ τ σ) (cmd : List String)
    (global : Bool) : ServiceSpec κ τ σ :=
  let service := { service with
    TaskTemplate := { service.TaskTemplate with
      ContainerSpec := { service.TaskTemplate.ContainerSpec with Command := cmd } } }
  let service := { service with
    TaskTemplate := { service.TaskTemplate with
      ContainerSpec := { service.TaskTemplate.ContainerSpec with Args := [] } } }
  let service := { service with
    TaskTemplate := { service.TaskTemplate with
      RestartPolicy := some
        { Condition := RestartPolicyConditionNone, Delay := none, MaxAttempts := none,
          Window := none } } }
  let service := { service with Name := service.Name ++ "_cj-job_" ++ randSeq rnd 4 }
  let serviceMode : ServiceMode :=
    if global then { Replicated := none, Global := some {} }
    else { Replicated := some { Replicas := some 1 }, Global := none }
  { service with Mode := serviceMode }

/-! ## `copyLogs`, `runJob` -/

/-- The function `copyLogs`: the calls made, the returned stream (`none` is the
nil interface) and the returned error. -/
def copyLogs (cli : Client κ τ σ) (serviceID : String) :
    List (Call κ τ σ) × Option Unit × Option Err :=
  match cli.ServiceLogs serviceID with
  | Except.error err => ([Call.ServiceLogs serviceID], none, some err)
  | Except.ok r => ([Call.ServiceLogs serviceID, Call.goCopy], some r, none)

/-- The function `runJob`. The removal deferred after a successful creation
runs when the function returns and when it panics. -/
def runJob (cli : Client κ τ σ) (rnd : Nat → Nat) (service : ServiceSpec κ τ σ)
    (cmd : List String) (global : Bool) : List (Call κ τ σ) × Outcome :=
  let service := jobSpec rnd service cmd global
  match cli.ServiceCreate service with
  | Except.error err => ([Call.ServiceCreate service], Outcome.returned 0 (some err))
  | Except.ok serviceID =>
    let deferred := [Call.ServiceRemove serviceID]
    let started := [Call.ServiceCreate service, Call.goWaitOnTasks serviceID]
    let (logCalls, logs, err) := copyLogs cli serviceID
    match (waitOnTasks (cli.TaskList serviceID)).2 with
    | none => (started ++ logCalls, Outcome.blocked)
    | some exitCode =>
      if err ≠ none then
        match logs with
        | none => (started ++ logCalls ++ [Call.receive exitCode] ++ deferred, Outcome.panicked)
        | some _ =>
          (started ++ logCalls ++ [Call.receive exitCode] ++ deferred,
            Outcome.returned exitCode none)
      else
        (started ++ logCalls ++ [Call.receive exitCode] ++ deferred,
          Outcome.returned exitCode none)

/-! ## `getConfigDetails`, `checkDaemonIsSwarmManager`, `cj` -/

/-- The type `composetypes.ConfigFile`. -/
structure ConfigFile (Y : Type) where
  Filename : String
  Config : Y

/-- The type `composetypes.ConfigDetails`. -/
structure ConfigDetails (Y : Type) where
  WorkingDir : String
  ConfigFiles : List (ConfigFile Y)
  Environment : List (String × String)

/-- Everything outside the program that one run of `cj` consults. -/
structure Host (κ τ σ Y C : Type) where
  NewEnvClient : Except Err (Client κ τ σ)
  Getwd : Except Err String
  Abs : String → Except Err String
  Dir : String → String
  ReadFile : String → Except Err String
  ParseYAML : String → Except Err Y
  Environ : List String
  Load : ConfigDetails Y → Except Err C
  Services : String → C → Except Err (List (ServiceSpec κ τ σ))
  rnd : Nat → Nat

/-- Assignment `m[k] = v` on a Go map kept as an association list. -/
def mapSet (m : List (String × String)) (k v : String) : List (String × String) :=
  (k, v) :: m.filter fun kv => kv.1 ≠ k

/-- The loop of `buildEnvironment`, started with the map built so far. -/
def buildEnvironmentLoop : List String → List (String × String)
    → List (String × String) × Option Err
  | [], result => (result, none)
  | s :: env, result =>
    if ¬ s.toList.contains '=' then
      (result, some (Err.unexpectedEnvironment s))
    else
      buildEnvironmentLoop env
        (mapSet result (String.mk (s.toList.takeWhile fun ch => ch ≠ '='))
          (String.mk ((s.toList.dropWhile fun ch => ch ≠ '=').drop 1)))

/-- The function `buildEnvironment`. -/
def buildEnvironment (env : List String) : List (String × String) × Option Err :=
  buildEnvironmentLoop env []

/-- The function `getConfigFile`. -/
def getConfigFile (h : Host κ τ σ Y C) (filename : String) : Except Err (ConfigFile Y) :=
  match h.ReadFile filename with
  | Except.error err => Except.error err
  | Except.ok bytes =>
    match h.ParseYAML bytes with
    | Except.error err => Except.error err
    | Except.ok config => Except.ok { Filename := filename, Config := config }

/-- The second half of `getConfigDetails`, from `getConfigFile` on. -/
def getConfigDetailsRest (h : Host κ τ σ Y C) (composefile : String)
    (details : ConfigDetails Y) : ConfigDetails Y × Option Err :=
  match getConfigFile h composefile with
  | Except.error err => (details, some err)
  | Except.ok configFile =>
    let details := { details with ConfigFiles := [configFile] }
    let r := buildEnvironment h.Environ
    ({ details with Environment := r.1 }, r.2)

/-- The function `getConfigDetails`. -/
def getConfigDetails (h : Host κ τ σ Y C) (composefile : String) :
    ConfigDetails Y × Option Err :=
  let details : ConfigDetails Y := { WorkingDir := "", ConfigFiles := [], Environment := [] }
  if composefile = "-" then
    match h.Getwd with
    | Except.error err => (details, some err)
    | Except.ok workingDir =>
      getConfigDetailsRest h composefile { details with WorkingDir := workingDir }
  else
    match h.Abs composefile with
    | Except.error err => (details, some err)
    | Except.ok absPath =>
      getConfigDetailsRest h composefile { details with WorkingDir := h.Dir absPath }

/-- The function `checkDaemonIsSwarmManager`. -/
def checkDaemonIsSwarmManager (cli : Client κ τ σ) : Option Err :=
  match cli.Info with
  | Except.error err => some err
  | Except.ok controlAvailable =>
    if ¬ controlAvailable then some Err.notSwarmManager else none

/-- The loop `for _, service := range services` of `cj` with the `return`
that follows it; `ns` is `namespace.Name()`. -/
def findAndRun (cli : Client κ τ σ) (rnd : Nat → Nat) (ns serviceName : String)
    (args : List String) (global : Bool) :
    List (ServiceSpec κ τ σ) → List (Call κ τ σ) × Outcome
  | [] => ([], Outcome.returned 0 (some (Err.serviceNotFound serviceName)))
  | service :: services =>
    if service.Name = ns ++ "_" ++ serviceName then
      runJob cli rnd service args global
    else
      findAndRun cli rnd ns serviceName args global services

/-- The function `cj`. `convert.NewNamespace(stackName).Name()` is `stackName`. -/
def cj (h : Host κ τ σ Y C) (composeFile stackName serviceName : String)
    (args : List String) (global : Bool) : List (Call κ τ σ) × Outcome :=
  match h.NewEnvClient with
  | Except.error err => ([], Outcome.returned 1 (some err))
  | Except.ok cli =>
    match getConfigDetails h composeFile with
    | (_, some err) => ([], Outcome.returned 2 (some err))
    | (configDetails, none) =>
      match h.Load configDetails with
      | Except.error err => ([], Outcome.returned 3 (some err))
      | Except.ok config =>
        match checkDaemonIsSwarmManager cli with
        | some err => ([Call.Info], Outcome.returned 4 (some err))
        | none =>
          match h.Services stackName config with
          | Except.error err => ([Call.Info], Outcome.returned 5 (some err))
          | Except.ok services =>
            let r := findAndRun cli h.rnd stackName serviceName args global services
            (Call.Info :: r.1, r.2)

/-! ## Sample inputs -/

/-- A service template as resolved from a compose file. -/
def sampleService : ServiceSpec Unit Unit Unit :=
  { Name := "stack_web",
    TaskTemplate :=
      { ContainerSpec := { Command := ["nginx"], Args := ["-g", "daemon off;"], others := () },
        RestartPolicy :=
          some { Condition := "any", Delay := some 5, MaxAttempts := none, Window := none },
        others := () },
    Mode := { Replicated := some { Replicas := some 3 }, Global := none },
    others := () }

/-- A manager node that creates every service as `svc1` and answers the polls
and the log request as given. -/
def sampleClient (polls : List PollResult) (logs : Except Err Unit) : Client Unit Unit Unit :=
  { Info := Except.ok true
    ServiceCreate := fun _ => Except.ok "svc1"
    TaskList := fun _ => polls
    ServiceLogs := fun _ => logs }

/-- A manager node that rejects every service creation. -/
def rejectingClient : Client Unit Unit Unit :=
  { Info := Except.ok true
    ServiceCreate := fun _ => Except.error (Err.lib "rejected")
    TaskList := fun _ => []
    ServiceLogs := fun _ => Except.ok () }

/-- A node that is not a swarm manager. -/
def workerClient : Client Unit Unit Unit :=
  { Info := Except.ok false
    ServiceCreate := fun _ => Except.ok "svc1"
    TaskList := fun _ => [PollResult.ok []]
    ServiceLogs := fun _ => Except.ok () }

/-- A host on which every step before the cluster succeeds, with the given
client and resolved services. -/
def sampleHost (cli : Client Unit Unit Unit) (services : List (ServiceSpec Unit Unit Unit)) :
    Host Unit Unit Unit Unit Unit :=
  { NewEnvClient := Except.ok cli
    Getwd := Except.ok "/work"
    Abs := fun f => Except.ok ("/work/" ++ f)
    Dir := fun _ => "/work"
    ReadFile := fun _ => Except.ok "services:"
    ParseYAML := fun _ => Except.ok ()
    Environ := ["HOME=/root", "EMPTY="]
    Load := fun _ => Except.ok ()
    Services := fun _ _ => Except.ok services
    rnd := fun i => 27 * i + 3 }

/-! ## Lemmas on the float comparison -/

theorem roundToFloat64_of_le (n : Nat) (h : n ≤ 2 ^ 53) : roundToFloat64 n = n := by
  rcases Nat.lt_or_ge n (2 ^ 53) with hlt | hge
  · have hs : excessBits n n = 0 := by
      cases n with
      | zero => rfl
      | succ k => simp only [excessBits, if_pos hlt]
    simp [roundToFloat64, hs, roundShift, Nat.mod_one]
  · have : n = 2 ^ 53 := Nat.le_antisymm h hge
    subst this
    decide

theorem mathAbs_float64 (x : Int) : mathAbs (float64 x) = (roundToFloat64 x.natAbs : Int) := by
  unfold mathAbs float64
  split_ifs <;> omega

theorem mathAbs_float64_of_le (x : Int) (h : x.natAbs ≤ 2 ^ 53) :
    mathAbs (float64 x) = (x.natAbs : Int) := by
  rw [mathAbs_float64, roundToFloat64_of_le _ h]

theorem codeStep_def (e c : Int) :
    codeStep e c
      = if c ≠ 0 then (if mathAbs (float64 e) < mathAbs (float64 c) then c else e) else e := rfl

theorem codeStep_eq_keepLarger (e c : Int) (he : e.natAbs ≤ 2 ^ 53) (hc : c.natAbs ≤ 2 ^ 53) :
    codeStep e c = keepLarger e c := by
  unfold codeStep keepLarger
  rw [mathAbs_float64_of_le e he, mathAbs_float64_of_le c hc]
  split_ifs <;> first | rfl | omega

theorem keepLarger_bound (e c : Int) (B : Nat) (he : e.natAbs ≤ B) (hc : c.natAbs ≤ B) :
    (keepLarger e c).natAbs ≤ B := by
  unfold keepLarger
  split_ifs <;> assumption

theorem foldl_codeStep_eq (codes : List Int) :
    ∀ e : Int, e.natAbs ≤ 2 ^ 53 → (∀ c ∈ codes, c.natAbs ≤ 2 ^ 53) →
      codes.foldl codeStep e = codes.foldl keepLarger e := by
  induction codes with
  | nil => intro e _ _; rfl
  | cons c cs ih =>
    intro e he hall
    have hc : c.natAbs ≤ 2 ^ 53 := hall c (List.mem_cons_self _ _)
    have hcs : ∀ d ∈ cs, d.natAbs ≤ 2 ^ 53 := fun d hd => hall d (List.mem_cons_of_mem _ hd)
    simp only [List.foldl_cons]
    rw [codeStep_eq_keepLarger e c he hc]
    exact ih _ (keepLarger_bound e c _ he hc) hcs

/-! ## Lemmas on the loops -/

theorem scanTasks_eq (tasks : List Task) :
    ∀ e : Int, scanTasks tasks e
      = (tasks.all isTerminal, ((tasks.takeWhile isTerminal).map Task.ExitCode).foldl codeStep e) := by
  induction tasks with
  | nil => intro e; rfl
  | cons t ts ih =>
    intro e
    by_cases ht : isTerminal t = true
    · have hn : ¬ (t.State ≠ TaskState.complete ∧ t.State ≠ TaskState.failed
          ∧ t.State ≠ TaskState.rejected) := by
        simp only [isTerminal, Bool.or_eq_true, decide_eq_true_eq] at ht
        tauto
      simp only [scanTasks, if_neg hn, List.all_cons, ht, Bool.true_and, List.takeWhile_cons,
        if_true, List.map_cons, List.foldl_cons]
      rw [codeStep_def e t.ExitCode]
      split_ifs <;> rw [ih]
    · have hy : t.State ≠ TaskState.complete ∧ t.State ≠ TaskState.failed
          ∧ t.State ≠ TaskState.rejected := by
        simp only [isTerminal, Bool.or_eq_true, decide_eq_true_eq] at ht
        tauto
      have hf : isTerminal t = false := by simpa using ht
      simp [scanTasks, hy, hf]

theorem waitLoop_finished (tasks : List Task) (rest : List PollResult) (e : Int)
    (h : tasks.all isTerminal = true) :
    waitLoop (PollResult.ok tasks :: rest) e
      = ([WatchEvent.poll, WatchEvent.send ((tasks.map Task.ExitCode).foldl codeStep e)],
         some ((tasks.map Task.ExitCode).foldl codeStep e)) := by
  have htw : tasks.takeWhile isTerminal = tasks := by
    rw [List.takeWhile_eq_self_iff]
    intro t ht
    exact List.all_eq_true.1 h t ht
  simp only [waitLoop, scanTasks_eq, h, if_true, htw]

theorem waitLoop_idle (pre : List PollResult) :
    ∀ (rest : List PollResult) (e : Int), (∀ o ∈ pre, o.finished = false) →
      waitLoop (pre ++ rest) e
        = (idleTrace pre ++ (waitLoop rest ((pre.flatMap PollResult.scannedCodes).foldl codeStep e)).1,
           (waitLoop rest ((pre.flatMap PollResult.scannedCodes).foldl codeStep e)).2) := by
  induction pre with
  | nil => intro rest e _; rfl
  | cons o os ih =>
    intro rest e hall
    have hos : ∀ p ∈ os, p.finished = false := fun p hp => hall p (List.mem_cons_of_mem _ hp)
    have ho : o.finished = false := hall o (List.mem_cons_self _ _)
    cases o with
    | err =>
      simp only [List.cons_append, waitLoop, List.append_eq, ih rest e hos, idleTrace,
        List.flatMap_cons, PollResult.scannedCodes, List.nil_append]
    | ok tasks =>
      have hf : tasks.all isTerminal = false := ho
      simp only [List.cons_append, waitLoop, List.append_eq, scanTasks_eq, hf, Bool.false_eq_true,
        if_false, ih rest _ hos, idleTrace, List.flatMap_cons, PollResult.scannedCodes,
        List.foldl_append]

theorem idleTrace_sentCodes (pre : List PollResult) : sentCodes (idleTrace pre) = [] := by
  induction pre with
  | nil => rfl
  | cons o os ih => cases o <;> simpa [idleTrace, sentCodes] using ih

theorem idleTrace_pollCount (pre : List PollResult) : pollCount (idleTrace pre) = pre.length := by
  induction pre with
  | nil => rfl
  | cons o os ih => cases o <;> simp [idleTrace, pollCount, ih]

theorem sentCodes_append (a b : List WatchEvent) : sentCodes (a ++ b) = sentCodes a ++ sentCodes b := by
  induction a with
  | nil => rfl
  | cons x xs ih => cases x <;> simp [sentCodes, ih]

theorem pollCount_append (a b : List WatchEvent) : pollCount (a ++ b) = pollCount a + pollCount b := by
  induction a with
  | nil => simp [pollCount]
  | cons x xs ih =>
    cases x
    · simp only [List.cons_append, pollCount, List.append_eq, ih]; omega
    · simp only [List.cons_append, pollCount, List.append_eq, ih]
    · simp only [List.cons_append, pollCount, List.append_eq, ih]

theorem foldl_codeStep_zeros (codes : List Int) (e : Int) (h : ∀ c ∈ codes, c = 0) :
    codes.foldl codeStep e = e := by
  induction codes with
  | nil => rfl
  | cons c cs ih =>
    have hc : c = 0 := h c (List.mem_cons_self _ _)
    subst hc
    simp only [List.foldl_cons, codeStep, ne_eq, not_true_eq_false, if_false]
    exact ih fun d hd => h d (List.mem_cons_of_mem _ hd)

/-- What the fold of `keepLarger` returns: the start value when nothing exceeds
it, otherwise the earliest element of largest absolute value. -/
theorem foldl_keepLarger_spec (codes : List Int) :
    ∀ e : Int,
      (codes.foldl keepLarger e = e ∧ ∀ c ∈ codes, c.natAbs ≤ e.natAbs) ∨
      (e.natAbs < (codes.foldl keepLarger e).natAbs ∧
        ∃ before after, codes = before ++ codes.foldl keepLarger e :: after ∧
          (∀ c ∈ before, c.natAbs < (codes.foldl keepLarger e).natAbs) ∧
          ∀ c ∈ after, c.natAbs ≤ (codes.foldl keepLarger e).natAbs) := by
  induction codes with
  | nil => intro e; left; exact ⟨rfl, fun c hc => absurd hc (List.not_mem_nil c)⟩
  | cons c cs ih =>
    intro e
    simp only [List.foldl_cons]
    by_cases hlt : e.natAbs < c.natAbs
    · have hk : keepLarger e c = c := by
        have h0 : c ≠ 0 := by intro h; subst h; simp at hlt
        simp [keepLarger, h0, hlt]
      rw [hk]
      rcases ih c with ⟨hr, hall⟩ | ⟨hgt, before, after, hsplit, hb, ha⟩
      · right
        rw [hr]
        exact ⟨hlt, [], cs, rfl, fun d hd => absurd hd (List.not_mem_nil d), hall⟩
      · right
        refine ⟨Nat.lt_trans hlt hgt, c :: before, after, ?_, ?_, ha⟩
        · rw [List.cons_append, ← hsplit]
        · intro d hd
          rcases List.mem_cons.1 hd with rfl | hd
          · exact hgt
          · exact hb d hd
    · have hk : keepLarger e c = e := by simp [keepLarger, hlt]
      rw [hk]
      rcases ih e with ⟨hr, hall⟩ | ⟨hgt, before, after, hsplit, hb, ha⟩
      · left
        refine ⟨hr, ?_⟩
        intro d hd
        rcases List.mem_cons.1 hd with rfl | hd
        · exact Nat.le_of_not_lt hlt
        · exact hall d hd
      · right
        refine ⟨hgt, c :: before, after, ?_, ?_, ha⟩
        · rw [List.cons_append, ← hsplit]
        · intro d hd
          rcases List.mem_cons.1 hd with rfl | hd
          · exact Nat.lt_of_le_of_lt (Nat.le_of_not_lt hlt) hgt
          · exact hb d hd

theorem foldl_keepLarger_ge (codes : List Int) (e : Int) :
    ∀ c ∈ codes, c.natAbs ≤ (codes.foldl keepLarger e).natAbs := by
  intro c hc
  rcases foldl_keepLarger_spec codes e with ⟨hr, hall⟩ | ⟨_, before, after, hsplit, hb, ha⟩
  · rw [hr]; exact hall c hc
  · rw [hsplit] at hc
    rcases List.mem_append.1 hc with h | h
    · exact Nat.le_of_lt (hb c h)
    · rcases List.mem_cons.1 h with h | h
      · rw [h]
      · exact ha c h

theorem all_isTerminal_of_states (tasks : List Task)
    (h : ∀ t ∈ tasks, t.State = TaskState.complete ∨ t.State = TaskState.failed
      ∨ t.State = TaskState.rejected) : tasks.all isTerminal = true := by
  rw [List.all_eq_true]
  intro t ht
  rcases h t ht with h | h | h <;> simp [isTerminal, h]

/-- A list of polls either has none that finishes the job or splits at the
first one that does. -/
theorem split_first_finished (polls : List PollResult) :
    (∀ o ∈ polls, o.finished = false) ∨
    ∃ pre tasks post, polls = pre ++ PollResult.ok tasks :: post ∧
      (∀ o ∈ pre, o.finished = false) ∧ tasks.all isTerminal = true := by
  induction polls with
  | nil => left; intro o ho; exact absurd ho (List.not_mem_nil o)
  | cons p ps ih =>
    by_cases hp : p.finished = true
    · right
      cases p with
      | err => simp [PollResult.finished] at hp
      | ok tasks =>
        exact ⟨[], tasks, ps, rfl, fun o ho => absurd ho (List.not_mem_nil o), hp⟩
    · have hp : p.finished = false := by simpa using hp
      rcases ih with hall | ⟨pre, tasks, post, hsplit, hpre, hfin⟩
      · left
        intro o ho
        rcases List.mem_cons.1 ho with rfl | ho
        · exact hp
        · exact hall o ho
      · right
        refine ⟨p :: pre, tasks, post, by rw [hsplit, List.cons_append], ?_, hfin⟩
        intro o ho
        rcases List.mem_cons.1 ho with rfl | ho
        · exact hp
        · exact hpre o ho

/-- The watcher on polls that split at the first finishing one. -/
theorem waitOnTasks_split (pre post : List PollResult) (tasks : List Task)
    (hpre : ∀ o ∈ pre, o.finished = false) (hfin : tasks.all isTerminal = true) :
    waitOnTasks (pre ++ PollResult.ok tasks :: post)
      = (idleTrace pre ++ [WatchEvent.poll, WatchEvent.send
            ((pre.flatMap PollResult.scannedCodes ++ tasks.map Task.ExitCode).foldl codeStep 0)],
         some ((pre.flatMap PollResult.scannedCodes ++ tasks.map Task.ExitCode).foldl codeStep 0)) := by
  unfold waitOnTasks
  rw [waitLoop_idle pre _ 0 hpre, waitLoop_finished tasks post _ hfin, List.foldl_append]

/-- The watcher on polls none of which finishes the job. -/
theorem waitOnTasks_idle (polls : List PollResult) (h : ∀ o ∈ polls, o.finished = false) :
    waitOnTasks polls = (idleTrace polls, none) := by
  have := waitLoop_idle polls [] 0 h
  simpa [waitOnTasks, waitLoop] using this

/-! ## The watcher: aggregation and termination -/

/-- C1, as stated, fails twice. The code left by an earlier poll is kept: after
`[Failed 7, Running]` the all-zero terminal poll `[Complete 0]` sends 7, not 0.
And the magnitudes are compared as `float64`: of the terminal codes
`2^53, 2^53 + 1` the first is sent, although the second is larger. -/
theorem waitOnTasks_aggregation_counterexample :
    waitOnTasks [PollResult.ok [⟨TaskState.failed, 7⟩, ⟨TaskState.running, 0⟩],
        PollResult.ok [⟨TaskState.complete, 0⟩]]
      = ([WatchEvent.poll, WatchEvent.sleep, WatchEvent.poll, WatchEvent.send 7], some 7)
    ∧ waitOnTasks [PollResult.ok [⟨TaskState.failed, 9007199254740992⟩,
        ⟨TaskState.failed, 9007199254740993⟩]]
      = ([WatchEvent.poll, WatchEvent.send 9007199254740992], some 9007199254740992) := by
  decide

/-- C1 (amended): when no earlier poll has scanned a task with a non-zero exit
code and the exit codes of an all-terminal poll have magnitude at most `2^53`,
the code sent after that poll is 0 if all its exit codes are 0 and otherwise
the earliest exit code of largest absolute value, sign kept; `[0, -3, 2]`
gives `-3`. -/
theorem waitOnTasks_aggregates_largest_magnitude (pre post : List PollResult)
    (tasks : List Task)
    (hpre : ∀ o ∈ pre, o.finished = false ∧ ∀ c ∈ o.scannedCodes, c = 0)
    (hterm : ∀ t ∈ tasks, t.State = TaskState.complete ∨ t.State = TaskState.failed
      ∨ t.State = TaskState.rejected)
    (hbound : ∀ t ∈ tasks, t.ExitCode.natAbs ≤ 2 ^ 53) :
    (∃ r : Int,
      waitOnTasks (pre ++ PollResult.ok tasks :: post)
        = (idleTrace pre ++ [WatchEvent.poll, WatchEvent.send r], some r)
      ∧ ((∀ t ∈ tasks, t.ExitCode = 0) → r = 0)
      ∧ ((∃ t ∈ tasks, t.ExitCode ≠ 0) →
          ∃ before after : List Int, tasks.map Task.ExitCode = before ++ r :: after
            ∧ (∀ c ∈ before, c.natAbs < r.natAbs) ∧ ∀ c ∈ after, c.natAbs ≤ r.natAbs))
    ∧ waitOnTasks [PollResult.ok [⟨TaskState.complete, 0⟩, ⟨TaskState.failed, -3⟩,
        ⟨TaskState.failed, 2⟩]] = ([WatchEvent.poll, WatchEvent.send (-3)], some (-3)) := by
  refine ⟨?_, by decide⟩
  have hfin := all_isTerminal_of_states tasks hterm
  have hzero : (pre.flatMap PollResult.scannedCodes).foldl codeStep 0 = 0 := by
    apply foldl_codeStep_zeros
    intro c hc
    rcases List.mem_flatMap.1 hc with ⟨o, ho, hco⟩
    exact (hpre o ho).2 c hco
  have hcodes : ∀ c ∈ tasks.map Task.ExitCode, c.natAbs ≤ 2 ^ 53 := by
    intro c hc
    rcases List.mem_map.1 hc with ⟨t, ht, rfl⟩
    exact hbound t ht
  have hr : (pre.flatMap PollResult.scannedCodes ++ tasks.map Task.ExitCode).foldl codeStep 0
      = (tasks.map Task.ExitCode).foldl keepLarger 0 := by
    rw [List.foldl_append, hzero]
    exact foldl_codeStep_eq _ 0 (by simp) hcodes
  refine ⟨(tasks.map Task.ExitCode).foldl keepLarger 0, ?_, ?_, ?_⟩
  · rw [waitOnTasks_split pre post tasks (fun o ho => (hpre o ho).1) hfin, hr]
  · intro hall
    rcases foldl_keepLarger_spec (tasks.map Task.ExitCode) 0 with ⟨h, _⟩ | ⟨hgt, before, after, hsplit, _, _⟩
    · exact h
    · have hmem : (tasks.map Task.ExitCode).foldl keepLarger 0 ∈ tasks.map Task.ExitCode :=
        List.mem_iff_append.2 ⟨before, after, hsplit⟩
      rcases List.mem_map.1 hmem with ⟨t, ht, hte⟩
      rw [← hte]
      exact hall t ht
  · rintro ⟨t, ht, hne⟩
    rcases foldl_keepLarger_spec (tasks.map Task.ExitCode) 0 with ⟨_, hall⟩ | ⟨_, before, after, hsplit, hb, ha⟩
    · exfalso
      have := hall t.ExitCode (List.mem_map_of_mem _ ht)
      simp only [Int.natAbs_zero, Nat.le_zero, Int.natAbs_eq_zero] at this
      exact hne this
    · exact ⟨before, after, hsplit, hb, ha⟩

/-- Witness for C1 (amended): a failed poll and an all-zero poll with a running
task, then a terminal poll with codes `5, -5, 1`. -/
theorem waitOnTasks_aggregates_largest_magnitude_witness :
    (∃ r : Int,
      waitOnTasks ([PollResult.err, PollResult.ok [⟨TaskState.complete, 0⟩, ⟨TaskState.running, 0⟩]]
          ++ PollResult.ok [⟨TaskState.failed, 5⟩, ⟨TaskState.rejected, -5⟩, ⟨TaskState.complete, 1⟩]
          :: [])
        = (idleTrace [PollResult.err,
              PollResult.ok [⟨TaskState.complete, 0⟩, ⟨TaskState.running, 0⟩]]
            ++ [WatchEvent.poll, WatchEvent.send r], some r)
      ∧ ((∀ t ∈ [(⟨TaskState.failed, 5⟩ : Task), ⟨TaskState.rejected, -5⟩,
            ⟨TaskState.complete, 1⟩], t.ExitCode = 0) → r = 0)
      ∧ ((∃ t ∈ [(⟨TaskState.failed, 5⟩ : Task), ⟨TaskState.rejected, -5⟩,
            ⟨TaskState.complete, 1⟩], t.ExitCode ≠ 0) →
          ∃ before after : List Int,
            [(⟨TaskState.failed, 5⟩ : Task), ⟨TaskState.rejected, -5⟩,
              ⟨TaskState.complete, 1⟩].map Task.ExitCode = before ++ r :: after
            ∧ (∀ c ∈ before, c.natAbs < r.natAbs) ∧ ∀ c ∈ after, c.natAbs ≤ r.natAbs))
    ∧ waitOnTasks [PollResult.ok [⟨TaskState.complete, 0⟩, ⟨TaskState.failed, -3⟩,
        ⟨TaskState.failed, 2⟩]] = ([WatchEvent.poll, WatchEvent.send (-3)], some (-3)) :=
  waitOnTasks_aggregates_largest_magnitude
    [PollResult.err, PollResult.ok [⟨TaskState.complete, 0⟩, ⟨TaskState.running, 0⟩]] []
    [⟨TaskState.failed, 5⟩, ⟨TaskState.rejected, -5⟩, ⟨TaskState.complete, 1⟩]
    (by decide) (by decide) (by decide)

/-- C2: whatever the polls answer, the watcher sends at most once. When the
polls split at a first successful all-terminal one, it sends exactly once, as
the event right after that poll, having sent nothing after the earlier polls
(failed ones, and successful ones listing a non-terminal task, after which it
polls again). While no poll is successful and all-terminal it sends nothing. -/
theorem waitOnTasks_sends_once_when_all_terminal (polls : List PollResult) :
    (∀ (pre post : List PollResult) (tasks : List Task),
        polls = pre ++ PollResult.ok tasks :: post →
        (∀ o ∈ pre, o.finished = false) →
        (∀ t ∈ tasks, t.State = TaskState.complete ∨ t.State = TaskState.failed
          ∨ t.State = TaskState.rejected) →
        ∃ r : Int,
          waitOnTasks polls = (idleTrace pre ++ [WatchEvent.poll, WatchEvent.send r], some r)
          ∧ sentCodes (idleTrace pre) = []
          ∧ sentCodes (waitOnTasks polls).1 = [r]
          ∧ pollCount (waitOnTasks polls).1 = pre.length + 1)
    ∧ ((∀ o ∈ polls, o.finished = false) →
        waitOnTasks polls = (idleTrace polls, none)
        ∧ sentCodes (waitOnTasks polls).1 = []
        ∧ pollCount (waitOnTasks polls).1 = polls.length)
    ∧ (sentCodes (waitOnTasks polls).1).length ≤ 1
    ∧ (∀ r : Int, (waitOnTasks polls).2 = some r →
        ∃ (pre post : List PollResult) (tasks : List Task),
          polls = pre ++ PollResult.ok tasks :: post ∧ (∀ o ∈ pre, o.finished = false)
          ∧ (∀ t ∈ tasks, t.State = TaskState.complete ∨ t.State = TaskState.failed
              ∨ t.State = TaskState.rejected)
          ∧ (waitOnTasks polls).1 = idleTrace pre ++ [WatchEvent.poll, WatchEvent.send r]) := by
  have key : ∀ (pre post : List PollResult) (tasks : List Task),
      polls = pre ++ PollResult.ok tasks :: post →
      (∀ o ∈ pre, o.finished = false) → tasks.all isTerminal = true →
      ∃ r : Int,
        waitOnTasks polls = (idleTrace pre ++ [WatchEvent.poll, WatchEvent.send r], some r)
        ∧ sentCodes (idleTrace pre) = []
        ∧ sentCodes (waitOnTasks polls).1 = [r]
        ∧ pollCount (waitOnTasks polls).1 = pre.length + 1 := by
    intro pre post tasks hsplit hpre hfin
    refine ⟨(pre.flatMap PollResult.scannedCodes ++ tasks.map Task.ExitCode).foldl codeStep 0,
      ?_, idleTrace_sentCodes pre, ?_, ?_⟩
    · rw [hsplit]; exact waitOnTasks_split pre post tasks hpre hfin
    · rw [hsplit, waitOnTasks_split pre post tasks hpre hfin]
      simp [sentCodes_append, idleTrace_sentCodes, sentCodes]
    · rw [hsplit, waitOnTasks_split pre post tasks hpre hfin]
      simp [pollCount_append, idleTrace_pollCount, pollCount]
  have idle : (∀ o ∈ polls, o.finished = false) →
      waitOnTasks polls = (idleTrace polls, none)
      ∧ sentCodes (waitOnTasks polls).1 = []
      ∧ pollCount (waitOnTasks polls).1 = polls.length := by
    intro h
    rw [waitOnTasks_idle polls h]
    exact ⟨rfl, idleTrace_sentCodes polls, idleTrace_pollCount polls⟩
  refine ⟨?_, idle, ?_, ?_⟩
  · intro pre post tasks hsplit hpre hterm
    exact key pre post tasks hsplit hpre (all_isTerminal_of_states tasks hterm)
  · rcases split_first_finished polls with h | ⟨pre, tasks, post, hsplit, hpre, hfin⟩
    · rw [(idle h).2.1]; simp
    · rcases key pre post tasks hsplit hpre hfin with ⟨r, _, _, hs, _⟩
      rw [hs]; simp
  · intro r hr
    rcases split_first_finished polls with h | ⟨pre, tasks, post, hsplit, hpre, hfin⟩
    · rw [(idle h).1] at hr
      cases hr
    · rcases key pre post tasks hsplit hpre hfin with ⟨r', hw, _, _, _⟩
      rw [hw] at hr
      have hrr : r' = r := Option.some.inj hr
      subst hrr
      refine ⟨pre, post, tasks, hsplit, hpre, ?_, by rw [hw]⟩
      intro t ht
      have := List.all_eq_true.1 hfin t ht
      simp only [isTerminal, Bool.or_eq_true, decide_eq_true_eq] at this
      tauto

/-- Witness for C2: a failed poll, a poll with a running task, an all-terminal
poll, and one more answer that is never asked for. -/
theorem waitOnTasks_sends_once_when_all_terminal_witness :
    ∃ r : Int,
      waitOnTasks [PollResult.err, PollResult.ok [⟨TaskState.complete, 0⟩, ⟨TaskState.running, 0⟩],
          PollResult.ok [⟨TaskState.complete, 0⟩, ⟨TaskState.failed, 1⟩], PollResult.err]
        = (idleTrace [PollResult.err,
              PollResult.ok [⟨TaskState.complete, 0⟩, ⟨TaskState.running, 0⟩]]
            ++ [WatchEvent.poll, WatchEvent.send r], some r)
      ∧ sentCodes (idleTrace [PollResult.err,
            PollResult.ok [⟨TaskState.complete, 0⟩, ⟨TaskState.running, 0⟩]]) = []
      ∧ sentCodes (waitOnTasks [PollResult.err,
          PollResult.ok [⟨TaskState.complete, 0⟩, ⟨TaskState.running, 0⟩],
          PollResult.ok [⟨TaskState.complete, 0⟩, ⟨TaskState.failed, 1⟩], PollResult.err]).1 = [r]
      ∧ pollCount (waitOnTasks [PollResult.err,
          PollResult.ok [⟨TaskState.complete, 0⟩, ⟨TaskState.running, 0⟩],
          PollResult.ok [⟨TaskState.complete, 0⟩, ⟨TaskState.failed, 1⟩], PollResult.err]).1
          = [PollResult.err,
              PollResult.ok [⟨TaskState.complete, 0⟩, ⟨TaskState.running, 0⟩]].length + 1 :=
  (waitOnTasks_sends_once_when_all_terminal
      [PollResult.err, PollResult.ok [⟨TaskState.complete, 0⟩, ⟨TaskState.running, 0⟩],
        PollResult.ok [⟨TaskState.complete, 0⟩, ⟨TaskState.failed, 1⟩], PollResult.err]).1
    [PollResult.err, PollResult.ok [⟨TaskState.complete, 0⟩, ⟨TaskState.running, 0⟩]]
    [PollResult.err] [⟨TaskState.complete, 0⟩, ⟨TaskState.failed, 1⟩]
    (by decide) (by decide) (by decide)

/-- C8 fails on the code: after a failed poll the watcher neither signals nor
aborts and keeps its exit code, but `continue` takes it straight to the next
poll, with no sleep; the sleep is taken only after a successful poll that lists
a non-terminal task. -/
theorem waitLoop_failed_poll_retries_without_sleep (polls : List PollResult) (exitCode : Int) :
    waitLoop (PollResult.err :: polls) exitCode
        = (WatchEvent.poll :: (waitLoop polls exitCode).1, (waitLoop polls exitCode).2)
    ∧ (waitLoop polls exitCode).1.head? ≠ some WatchEvent.sleep
    ∧ waitOnTasks [PollResult.err, PollResult.ok [⟨TaskState.complete, 0⟩]]
        = ([WatchEvent.poll, WatchEvent.poll, WatchEvent.send 0], some 0)
    ∧ waitOnTasks [PollResult.ok [⟨TaskState.running, 0⟩], PollResult.ok [⟨TaskState.complete, 0⟩]]
        = ([WatchEvent.poll, WatchEvent.sleep, WatchEvent.poll, WatchEvent.send 0], some 0) := by
  refine ⟨rfl, ?_, by decide, by decide⟩
  cases polls with
  | nil => simp [waitLoop]
  | cons p ps =>
    cases p with
    | err => simp [waitLoop]
    | ok tasks =>
      simp only [waitLoop]
      split_ifs <;> simp

/-- C9, as stated, fails for exit codes beyond `2^53`: the poll
`[Failed -2^53, Complete 2^53 + 1]` sends `-2^53`, while the fold of the stated
rule gives `2^53 + 1`, whose absolute value is larger than that of the result. -/
theorem waitOnTasks_accumulation_counterexample :
    waitOnTasks [PollResult.ok [⟨TaskState.failed, -9007199254740992⟩,
        ⟨TaskState.complete, 9007199254740993⟩]]
      = ([WatchEvent.poll, WatchEvent.send (-9007199254740992)], some (-9007199254740992))
    ∧ [(-9007199254740992 : Int), 9007199254740993].foldl keepLarger 0 = 9007199254740993
    ∧ (-9007199254740992 : Int).natAbs < (9007199254740993 : Int).natAbs := by
  decide

/-- C9 (amended): for polls that split at a first successful all-terminal one,
with every scanned exit code of magnitude at most `2^53`, the code sent is the
left fold of the stated rule, from 0, over the tasks scanned in the successful
polls in order (in a non-final poll those before its first non-terminal task);
its absolute value is at least that of every exit code of the final poll; and
polls `[Failed 7, Running]`, `[Complete 0]` send 7. -/
theorem waitOnTasks_accumulates_across_polls (pre post : List PollResult) (tasks : List Task)
    (hpre : ∀ o ∈ pre, o.finished = false)
    (hterm : ∀ t ∈ tasks, t.State = TaskState.complete ∨ t.State = TaskState.failed
      ∨ t.State = TaskState.rejected)
    (hbpre : ∀ o ∈ pre, ∀ c ∈ o.scannedCodes, c.natAbs ≤ 2 ^ 53)
    (hbound : ∀ t ∈ tasks, t.ExitCode.natAbs ≤ 2 ^ 53) :
    (waitOnTasks (pre ++ PollResult.ok tasks :: post)).2
        = some ((pre.flatMap PollResult.scannedCodes ++ tasks.map Task.ExitCode).foldl keepLarger 0)
    ∧ (∀ t ∈ tasks, t.ExitCode.natAbs ≤
        ((pre.flatMap PollResult.scannedCodes ++ tasks.map Task.ExitCode).foldl keepLarger 0).natAbs)
    ∧ (waitOnTasks [PollResult.ok [⟨TaskState.failed, 7⟩, ⟨TaskState.running, 0⟩],
        PollResult.ok [⟨TaskState.complete, 0⟩]]).2 = some 7 := by
  have hcodes : ∀ c ∈ pre.flatMap PollResult.scannedCodes ++ tasks.map Task.ExitCode,
      c.natAbs ≤ 2 ^ 53 := by
    intro c hc
    rcases List.mem_append.1 hc with h | h
    · rcases List.mem_flatMap.1 h with ⟨o, ho, hco⟩
      exact hbpre o ho c hco
    · rcases List.mem_map.1 h with ⟨t, ht, rfl⟩
      exact hbound t ht
  refine ⟨?_, ?_, by decide⟩
  · rw [waitOnTasks_split pre post tasks hpre (all_isTerminal_of_states tasks hterm),
      foldl_codeStep_eq _ 0 (by simp) hcodes]
  · intro t ht
    apply foldl_keepLarger_ge
    exact List.mem_append_right _ (List.mem_map_of_mem _ ht)

/-- Witness for C9 (amended): `[Failed 7, Running]`, a failed poll, then
`[Complete -2, Rejected 3]`. -/
theorem waitOnTasks_accumulates_across_polls_witness :
    (waitOnTasks ([PollResult.ok [⟨TaskState.failed, 7⟩, ⟨TaskState.running, 0⟩], PollResult.err]
        ++ PollResult.ok [⟨TaskState.complete, -2⟩, ⟨TaskState.rejected, 3⟩] :: [])).2
        = some (([PollResult.ok [⟨TaskState.failed, 7⟩, ⟨TaskState.running, 0⟩],
              PollResult.err].flatMap PollResult.scannedCodes
            ++ [(⟨TaskState.complete, -2⟩ : Task), ⟨TaskState.rejected, 3⟩].map Task.ExitCode).foldl
            keepLarger 0)
    ∧ (∀ t ∈ [(⟨TaskState.complete, -2⟩ : Task), ⟨TaskState.rejected, 3⟩], t.ExitCode.natAbs ≤
        (([PollResult.ok [⟨TaskState.failed, 7⟩, ⟨TaskState.running, 0⟩],
              PollResult.err].flatMap PollResult.scannedCodes
            ++ [(⟨TaskState.complete, -2⟩ : Task), ⟨TaskState.rejected, 3⟩].map Task.ExitCode).foldl
            keepLarger 0).natAbs)
    ∧ (waitOnTasks [PollResult.ok [⟨TaskState.failed, 7⟩, ⟨TaskState.running, 0⟩],
        PollResult.ok [⟨TaskState.complete, 0⟩]]).2 = some 7 :=
  waitOnTasks_accumulates_across_polls
    [PollResult.ok [⟨TaskState.failed, 7⟩, ⟨TaskState.running, 0⟩], PollResult.err] []
    [⟨TaskState.complete, -2⟩, ⟨TaskState.rejected, 3⟩]
    (by decide) (by decide) (by decide) (by decide)

/-! ## The coordinator `runJob` -/

theorem randSeq_length (rnd : Nat → Nat) (n : Nat) : (randSeq rnd n).length = n := by
  simp [randSeq, String.length]

theorem randSeq_letters (rnd : Nat → Nat) (n : Nat) :
    ∀ ch ∈ (randSeq rnd n).toList, ch ∈ "abcdefghijklmnopqrstuvwxyz".toList := by
  intro ch hch
  simp only [randSeq, String.toList, List.mem_map] at hch
  rcases hch with ⟨i, _, rfl⟩
  exact List.get_mem _ _ _

/-- C3 fails on the code: with the service created and the watcher signalling
`exitCode`, `runJob` returns `(exitCode, nil)` when the log stream opens, but
when it does not, `err != nil` holds and `logs.Close()` is called on the nil
stream, so `runJob` panics (the deferred removal still runs). -/
theorem runJob_log_open_failure_panics (cli : Client κ τ σ) (rnd : Nat → Nat)
    (service : ServiceSpec κ τ σ) (cmd : List String) (global : Bool)
    (serviceID : String) (exitCode : Int)
    (hc : cli.ServiceCreate (jobSpec rnd service cmd global) = Except.ok serviceID)
    (hw : (waitOnTasks (cli.TaskList serviceID)).2 = some exitCode) :
    (cli.ServiceLogs serviceID = Except.ok () →
      runJob cli rnd service cmd global
        = ([Call.ServiceCreate (jobSpec rnd service cmd global), Call.goWaitOnTasks serviceID,
            Call.ServiceLogs serviceID, Call.goCopy, Call.receive exitCode,
            Call.ServiceRemove serviceID], Outcome.returned exitCode none))
    ∧ (∀ err : Err, cli.ServiceLogs serviceID = Except.error err →
      runJob cli rnd service cmd global
        = ([Call.ServiceCreate (jobSpec rnd service cmd global), Call.goWaitOnTasks serviceID,
            Call.ServiceLogs serviceID, Call.receive exitCode,
            Call.ServiceRemove serviceID], Outcome.panicked)) := by
  constructor
  · intro hl
    simp [runJob, hc, copyLogs, hl, hw]
  · intro err hl
    simp [runJob, hc, copyLogs, hl, hw]

/-- Witness for C3: the job exits with 3 and the log stream cannot be opened. -/
theorem runJob_log_open_failure_panics_witness :
    runJob (sampleClient [PollResult.ok [⟨TaskState.failed, 3⟩]] (Except.error (Err.lib "no logs")))
        (fun _ => 0) sampleService ["true"] false
      = ([Call.ServiceCreate (jobSpec (fun _ => 0) sampleService ["true"] false),
          Call.goWaitOnTasks "svc1", Call.ServiceLogs "svc1", Call.receive 3,
          Call.ServiceRemove "svc1"], Outcome.panicked) :=
  (runJob_log_open_failure_panics
      (sampleClient [PollResult.ok [⟨TaskState.failed, 3⟩]] (Except.error (Err.lib "no logs")))
      (fun _ => 0) sampleService ["true"] false "svc1" 3 rfl (by decide)).2
    (Err.lib "no logs") rfl

/-- C5: if `ServiceCreate` fails, `runJob` returns the creation error after
that single call: no watcher, no log stream, no removal. If it succeeds with
`serviceID`, no removal is issued while the coordinator has not received the
watcher's code, and once it has received `exitCode` the run ends (by return or
by panic) with `ServiceRemove serviceID` issued exactly once, as the step right
after the receive. -/
theorem runJob_teardown (cli : Client κ τ σ) (rnd : Nat → Nat)
    (service : ServiceSpec κ τ σ) (cmd : List String) (global : Bool) :
    (∀ err : Err, cli.ServiceCreate (jobSpec rnd service cmd global) = Except.error err →
      runJob cli rnd service cmd global
        = ([Call.ServiceCreate (jobSpec rnd service cmd global)], Outcome.returned 0 (some err)))
    ∧ (∀ serviceID : String,
        cli.ServiceCreate (jobSpec rnd service cmd global) = Except.ok serviceID →
        ∃ before : List (Call κ τ σ),
          before = [Call.ServiceCreate (jobSpec rnd service cmd global),
              Call.goWaitOnTasks serviceID] ++ (copyLogs cli serviceID).1
          ∧ (∀ anyID : String, Call.ServiceRemove anyID ∉ before)
          ∧ ((waitOnTasks (cli.TaskList serviceID)).2 = none →
              runJob cli rnd service cmd global = (before, Outcome.blocked))
          ∧ (∀ exitCode : Int, (waitOnTasks (cli.TaskList serviceID)).2 = some exitCode →
              (runJob cli rnd service cmd global).1
                  = before ++ [Call.receive exitCode, Call.ServiceRemove serviceID]
              ∧ ((runJob cli rnd service cmd global).2 = Outcome.returned exitCode none
                  ∨ (runJob cli rnd service cmd global).2 = Outcome.panicked))) := by
  constructor
  · intro err hc
    simp [runJob, hc]
  · intro serviceID hc
    refine ⟨_, rfl, ?_, ?_, ?_⟩
    · intro anyID
      unfold copyLogs
      cases cli.ServiceLogs serviceID <;> simp
    · intro hw
      simp only [runJob, hc, hw]
    · intro exitCode hw
      cases hl : cli.ServiceLogs serviceID <;> simp [runJob, hc, hw, copyLogs, hl]

/-- Witness for C5: a job whose only task completes at the second poll. -/
theorem runJob_teardown_witness :
    ∃ before : List (Call Unit Unit Unit),
      before = [Call.ServiceCreate (jobSpec (fun _ => 0) sampleService ["true"] true),
          Call.goWaitOnTasks "svc1"]
        ++ (copyLogs (sampleClient [PollResult.ok [⟨TaskState.running, 0⟩],
              PollResult.ok [⟨TaskState.complete, 0⟩]] (Except.ok ())) "svc1").1
      ∧ (∀ anyID : String, Call.ServiceRemove anyID ∉ before)
      ∧ ((waitOnTasks ((sampleClient [PollResult.ok [⟨TaskState.running, 0⟩],
              PollResult.ok [⟨TaskState.complete, 0⟩]] (Except.ok ())).TaskList "svc1")).2 = none →
          runJob (sampleClient [PollResult.ok [⟨TaskState.running, 0⟩],
              PollResult.ok [⟨TaskState.complete, 0⟩]] (Except.ok ()))
            (fun _ => 0) sampleService ["true"] true = (before, Outcome.blocked))
      ∧ (∀ exitCode : Int,
          (waitOnTasks ((sampleClient [PollResult.ok [⟨TaskState.running, 0⟩],
              PollResult.ok [⟨TaskState.complete, 0⟩]] (Except.ok ())).TaskList "svc1")).2
            = some exitCode →
          (runJob (sampleClient [PollResult.ok [⟨TaskState.running, 0⟩],
              PollResult.ok [⟨TaskState.complete, 0⟩]] (Except.ok ()))
            (fun _ => 0) sampleService ["true"] true).1
              = before ++ [Call.receive exitCode, Call.ServiceRemove "svc1"]
          ∧ ((runJob (sampleClient [PollResult.ok [⟨TaskState.running, 0⟩],
                PollResult.ok [⟨TaskState.complete, 0⟩]] (Except.ok ()))
              (fun _ => 0) sampleService ["true"] true).2 = Outcome.returned exitCode none
            ∨ (runJob (sampleClient [PollResult.ok [⟨TaskState.running, 0⟩],
                PollResult.ok [⟨TaskState.complete, 0⟩]] (Except.ok ()))
              (fun _ => 0) sampleService ["true"] true).2 = Outcome.panicked)) :=
  (runJob_teardown
      (sampleClient [PollResult.ok [⟨TaskState.running, 0⟩],
        PollResult.ok [⟨TaskState.complete, 0⟩]] (Except.ok ()))
      (fun _ => 0) sampleService ["true"] true).2 "svc1" rfl

/-- C6: the specification `runJob` passes to `ServiceCreate` (the first call
it makes, and the only creation) has restart policy with condition "none" and
nothing else set, name = template name, then "_cj-job_", then 4 letters of a-z,
`Command` = the command vector, `Args` empty, mode Global alone when the flag
is set and otherwise Replicated alone with 1 replica; all remaining fields of
the service, of its task template and of its container spec are the
template's. -/
theorem runJob_job_spec (cli : Client κ τ σ) (rnd : Nat → Nat)
    (service : ServiceSpec κ τ σ) (cmd : List String) (global : Bool) :
    (∃ rest : List (Call κ τ σ),
      (runJob cli rnd service cmd global).1
          = Call.ServiceCreate (jobSpec rnd service cmd global) :: rest
      ∧ ∀ other : ServiceSpec κ τ σ, Call.ServiceCreate other ∉ rest)
    ∧ (jobSpec rnd service cmd global).TaskTemplate.RestartPolicy
        = some { Condition := "none", Delay := none, MaxAttempts := none, Window := none }
    ∧ (∃ suffix : String,
        (jobSpec rnd service cmd global).Name = service.Name ++ "_cj-job_" ++ suffix
        ∧ suffix = randSeq rnd 4
        ∧ suffix.length = 4
        ∧ ∀ ch ∈ suffix.toList, ch ∈ "abcdefghijklmnopqrstuvwxyz".toList)
    ∧ (jobSpec rnd service cmd global).TaskTemplate.ContainerSpec.Command = cmd
    ∧ (jobSpec rnd service cmd global).TaskTemplate.ContainerSpec.Args = []
    ∧ (jobSpec rnd service cmd global).Mode
        = (if global then { Replicated := none, Global := some {} }
           else { Replicated := some { Replicas := some 1 }, Global := none })
    ∧ (jobSpec rnd service cmd global).others = service.others
    ∧ (jobSpec rnd service cmd global).TaskTemplate.others = service.TaskTemplate.others
    ∧ (jobSpec rnd service cmd global).TaskTemplate.ContainerSpec.others
        = service.TaskTemplate.ContainerSpec.others := by
  refine ⟨?_, rfl, ⟨randSeq rnd 4, rfl, rfl, randSeq_length rnd 4, randSeq_letters rnd 4⟩,
    rfl, rfl, rfl, rfl, rfl, rfl⟩
  cases hc : cli.ServiceCreate (jobSpec rnd service cmd global) with
  | error err => exact ⟨[], by simp [runJob, hc], by simp⟩
  | ok serviceID =>
    cases hw : (waitOnTasks (cli.TaskList serviceID)).2 with
    | none =>
      cases hl : cli.ServiceLogs serviceID with
      | error e =>
        exact ⟨[Call.goWaitOnTasks serviceID, Call.ServiceLogs serviceID],
          by simp [runJob, hc, hw, copyLogs, hl], by simp⟩
      | ok r =>
        exact ⟨[Call.goWaitOnTasks serviceID, Call.ServiceLogs serviceID, Call.goCopy],
          by simp [runJob, hc, hw, copyLogs, hl], by simp⟩
    | some exitCode =>
      cases hl : cli.ServiceLogs serviceID with
      | error e =>
        exact ⟨[Call.goWaitOnTasks serviceID, Call.ServiceLogs serviceID, Call.receive exitCode,
            Call.ServiceRemove serviceID],
          by simp [runJob, hc, hw, copyLogs, hl], by simp⟩
      | ok r =>
        exact ⟨[Call.goWaitOnTasks serviceID, Call.ServiceLogs serviceID, Call.goCopy,
            Call.receive exitCode, Call.ServiceRemove serviceID],
          by simp [runJob, hc, hw, copyLogs, hl], by simp⟩

/-- C10 fails on the code when the log stream cannot be opened (the defect of
C3): if the first successful poll lists no task, the watcher sends 0 right
after that poll, with no sleep and no further poll, and `runJob` removes the
service; it returns `(0, nil)` when the log stream opened, and panics on the
nil stream when it did not. -/
theorem runJob_empty_task_list (cli : Client κ τ σ) (rnd : Nat → Nat)
    (service : ServiceSpec κ τ σ) (cmd : List String) (global : Bool)
    (serviceID : String) (failures : Nat) (later : List PollResult)
    (hc : cli.ServiceCreate (jobSpec rnd service cmd global) = Except.ok serviceID)
    (hp : cli.TaskList serviceID
      = List.replicate failures PollResult.err ++ PollResult.ok [] :: later) :
    waitOnTasks (cli.TaskList serviceID)
        = (List.replicate failures WatchEvent.poll ++ [WatchEvent.poll, WatchEvent.send 0], some 0)
    ∧ (cli.ServiceLogs serviceID = Except.ok () →
      runJob cli rnd service cmd global
        = ([Call.ServiceCreate (jobSpec rnd service cmd global), Call.goWaitOnTasks serviceID,
            Call.ServiceLogs serviceID, Call.goCopy, Call.receive 0,
            Call.ServiceRemove serviceID], Outcome.returned 0 none))
    ∧ (∀ err : Err, cli.ServiceLogs serviceID = Except.error err →
      runJob cli rnd service cmd global
        = ([Call.ServiceCreate (jobSpec rnd service cmd global), Call.goWaitOnTasks serviceID,
            Call.ServiceLogs serviceID, Call.receive 0,
            Call.ServiceRemove serviceID], Outcome.panicked)) := by
  have hidle : ∀ n : Nat, idleTrace (List.replicate n PollResult.err)
      = List.replicate n WatchEvent.poll := by
    intro n
    induction n with
    | zero => rfl
    | succ k ih => simp only [List.replicate_succ, idleTrace, ih]
  have hscan : ∀ n : Nat, (List.replicate n PollResult.err).flatMap PollResult.scannedCodes = [] := by
    intro n
    induction n with
    | zero => rfl
    | succ k ih => simp only [List.replicate_succ, List.flatMap_cons, PollResult.scannedCodes, ih,
        List.append_nil]
  have hw : waitOnTasks (cli.TaskList serviceID)
      = (List.replicate failures WatchEvent.poll ++ [WatchEvent.poll, WatchEvent.send 0], some 0) := by
    rw [hp, waitOnTasks_split _ later [] ?_ rfl, hidle, hscan]
    · rfl
    · intro o ho
      rw [List.eq_of_mem_replicate ho]
      rfl
  have hw2 : (waitOnTasks (cli.TaskList serviceID)).2 = some 0 := by rw [hw]
  refine ⟨hw, ?_, ?_⟩
  · intro hl
    simp [runJob, hc, copyLogs, hl, hw2]
  · intro err hl
    simp [runJob, hc, copyLogs, hl, hw2]

/-- Witness for C10: two failed polls, an empty task list, and a log stream
that cannot be opened. -/
theorem runJob_empty_task_list_witness :
    runJob (sampleClient [PollResult.err, PollResult.err, PollResult.ok [],
          PollResult.ok [⟨TaskState.running, 0⟩]] (Except.error (Err.lib "no logs")))
        (fun _ => 0) sampleService ["true"] false
      = ([Call.ServiceCreate (jobSpec (fun _ => 0) sampleService ["true"] false),
          Call.goWaitOnTasks "svc1", Call.ServiceLogs "svc1", Call.receive 0,
          Call.ServiceRemove "svc1"], Outcome.panicked) :=
  (runJob_empty_task_list
      (sampleClient [PollResult.err, PollResult.err, PollResult.ok [],
        PollResult.ok [⟨TaskState.running, 0⟩]] (Except.error (Err.lib "no logs")))
      (fun _ => 0) sampleService ["true"] false "svc1" 2 [PollResult.ok [⟨TaskState.running, 0⟩]]
      rfl rfl).2.2 (Err.lib "no logs") rfl

/-! ## The entry point `cj` -/

/-- C4 fails on the code: a service name that the compose file does not define
and a service creation that the cluster rejects both make `cj` return status 0
together with a non-nil error. -/
theorem cj_returns_zero_with_error :
    cj (sampleHost (sampleClient [PollResult.ok [⟨TaskState.complete, 0⟩]] (Except.ok ()))
        [sampleService]) "docker-compose.yml" "stack" "db" ["true"] false
      = ([Call.Info], Outcome.returned 0 (some (Err.serviceNotFound "db")))
    ∧ cj (sampleHost rejectingClient [sampleService]) "docker-compose.yml" "stack" "web"
        ["true"] false
      = ([Call.Info, Call.ServiceCreate (jobSpec (fun i => 27 * i + 3) sampleService ["true"] false)],
          Outcome.returned 0 (some (Err.lib "rejected"))) := by
  constructor <;> rfl

theorem findAndRun_not_found (cli : Client κ τ σ) (rnd : Nat → Nat) (ns serviceName : String)
    (args : List String) (global : Bool) (services : List (ServiceSpec κ τ σ))
    (h : ∀ s ∈ services, s.Name ≠ ns ++ "_" ++ serviceName) :
    findAndRun cli rnd ns serviceName args global services
      = ([], Outcome.returned 0 (some (Err.serviceNotFound serviceName))) := by
  induction services with
  | nil => rfl
  | cons s rest ih =>
    have hs : s.Name ≠ ns ++ "_" ++ serviceName := h s (List.mem_cons_self _ _)
    simp only [findAndRun, if_neg hs]
    exact ih fun x hx => h x (List.mem_cons_of_mem _ hx)

theorem findAndRun_first_match (cli : Client κ τ σ) (rnd : Nat → Nat) (ns serviceName : String)
    (args : List String) (global : Bool) (pre post : List (ServiceSpec κ τ σ))
    (service : ServiceSpec κ τ σ)
    (hpre : ∀ s ∈ pre, s.Name ≠ ns ++ "_" ++ serviceName)
    (hs : service.Name = ns ++ "_" ++ serviceName) :
    findAndRun cli rnd ns serviceName args global (pre ++ service :: post)
      = runJob cli rnd service args global := by
  induction pre with
  | nil => simp only [List.nil_append, findAndRun, if_pos hs]
  | cons s rest ih =>
    have h1 : s.Name ≠ ns ++ "_" ++ serviceName := hpre s (List.mem_cons_self _ _)
    simp only [List.cons_append, findAndRun, if_neg h1, List.append_eq]
    exact ih fun x hx => hpre x (List.mem_cons_of_mem _ hx)

/-- C7: in every run of `cj` in which the client is asked `Info` and answers
that control is not available, `cj` returns `(4, not-a-manager error)` and never
calls `ServiceCreate`. In every run that gets the resolved templates: if none
is named `<stackName>_<serviceName>`, `cj` returns the error "service ... was
not found" (another error than not-a-manager), without panic and without
calling `ServiceCreate`; otherwise it runs the first template of that name. -/
theorem cj_preconditions (h : Host κ τ σ Y C) (composeFile stackName serviceName : String)
    (args : List String) (global : Bool) (cli : Client κ τ σ)
    (hcli : h.NewEnvClient = Except.ok cli) :
    (cli.Info = Except.ok false →
      Call.Info ∈ (cj h composeFile stackName serviceName args global).1 →
      cj h composeFile stackName serviceName args global
        = ([Call.Info], Outcome.returned 4 (some Err.notSwarmManager)))
    ∧ (∀ (details : ConfigDetails Y) (config : C) (services : List (ServiceSpec κ τ σ)),
        getConfigDetails h composeFile = (details, none) →
        h.Load details = Except.ok config →
        cli.Info = Except.ok true →
        h.Services stackName config = Except.ok services →
        ((∀ s ∈ services, s.Name ≠ stackName ++ "_" ++ serviceName) →
          cj h composeFile stackName serviceName args global
            = ([Call.Info], Outcome.returned 0 (some (Err.serviceNotFound serviceName)))
          ∧ Err.serviceNotFound serviceName ≠ Err.notSwarmManager)
        ∧ (∀ (pre post : List (ServiceSpec κ τ σ)) (service : ServiceSpec κ τ σ),
            services = pre ++ service :: post →
            (∀ s ∈ pre, s.Name ≠ stackName ++ "_" ++ serviceName) →
            service.Name = stackName ++ "_" ++ serviceName →
            cj h composeFile stackName serviceName args global
              = (Call.Info :: (runJob cli h.rnd service args global).1,
                  (runJob cli h.rnd service args global).2))) := by
  constructor
  · intro hinfo hmem
    unfold cj at hmem ⊢
    rw [hcli] at hmem ⊢
    rcases hd : getConfigDetails h composeFile with ⟨details, err⟩
    rw [hd] at hmem
    cases err with
    | some e => simp at hmem
    | none =>
      cases hload : h.Load details with
      | error e => simp [hload] at hmem
      | ok config => simp [hload, checkDaemonIsSwarmManager, hinfo]
  · intro details config services hd hload hinfo hserv
    constructor
    · intro hnone
      refine ⟨?_, by simp⟩
      simp [cj, hcli, hd, hload, checkDaemonIsSwarmManager, hinfo, hserv,
        findAndRun_not_found cli h.rnd stackName serviceName args global services hnone]
    · intro pre post service hsplit hpre hs
      simp [cj, hcli, hd, hload, checkDaemonIsSwarmManager, hinfo, hserv, hsplit,
        findAndRun_first_match cli h.rnd stackName serviceName args global pre post service hpre hs]

/-- Witness for C7: on a node that is not a manager `cj` stops with status 4
after the `Info` call. -/
theorem cj_preconditions_witness :
    cj (sampleHost workerClient [sampleService]) "docker-compose.yml" "stack" "web" ["true"] false
      = ([Call.Info], Outcome.returned 4 (some Err.notSwarmManager)) :=
  (cj_preconditions (sampleHost workerClient [sampleService]) "docker-compose.yml" "stack" "web"
    ["true"] false workerClient rfl).1 rfl (by decide)

end Cj
